import Mathlib

set_option linter.unusedVariables false

/-!
Shallow embedding of the traced SQL driver adapter (sql.go).

Modelling conventions:
  * `Value` stands for driver.Value (an opaque scalar), `NamedValue` for
    driver.NamedValue (ordinal dropped: the source never reads it).
  * `Ctx` models context.Context: it carries the cancellation state
    (ctx.Err()) and a trace identity.  tracer.Start(ctx, name) returns a
    context derived from its argument that preserves both fields, so the
    derived context is represented by the parent context itself; the span
    side effects are modelled as an explicit event log.
  * Each wrapped operation returns its Go result paired with the list of
    events it emits: span lifecycle events (start / attribute / record
    error / end) and native driver invocations.  The Go zero value of a
    context field is `nilCtx`, of a string field the empty string.
  * Native driver objects are records of pure outcome functions; optional
    capabilities (driver.ConnBeginTx, driver.Execer, driver.ExecerContext,
    driver.Pinger, ...) are `Option` fields, mirroring the runtime
    capability checks of the source.
-/

abbrev Value := Int

structure NamedValue where
  name : String
  value : Value
deriving Repr, DecidableEq

inductive Err where
  | native : Nat → Err
  | errSkip : Err
  | namedParams : Err
  | ctxCanceled : Nat → Err
deriving Repr, DecidableEq

def Err.message : Err → String
  | .native n => "native error " ++ toString n
  | .errSkip => "driver: skip fast-path; continue as if unimplemented"
  | .namedParams => "sql: driver does not support the use of Named Parameters"
  | .ctxCanceled _ => "context canceled"

structure Ctx where
  cancelErr : Option Err
  traceId : Nat
deriving Repr, DecidableEq

def nilCtx : Ctx := { cancelErr := none, traceId := 0 }

structure TxOptions where
  isolation : Nat
  readOnly : Bool
deriving Repr, DecidableEq

inductive NCall where
  | driverOpen (name : String)
  | connPrepare (q : String)
  | connPrepareCtx (q : String)
  | connClose
  | connBegin
  | connBeginTx (opts : TxOptions)
  | connExec (q : String) (args : List Value)
  | connExecCtx (q : String) (args : List NamedValue)
  | connQuery (q : String) (args : List Value)
  | connQueryCtx (q : String) (args : List NamedValue)
  | connPing
  | txCommit
  | txRollback
  | stmtClose
  | stmtNumInput
  | stmtExec (args : List Value)
  | stmtQuery (args : List Value)
  | stmtExecCtx (args : List NamedValue)
  | stmtQueryCtx (args : List NamedValue)
  | resLastInsertId
  | resRowsAffected
  | rowsColumns
  | rowsClose
  | rowsNext
deriving Repr, DecidableEq

inductive Event where
  | spanStart (name : String) (traceId : Nat)
  | setAttr (key : String) (val : String)
  | recordError (e : Err)
  | spanEnd
  | nativeCall (c : NCall)
deriving Repr, DecidableEq

def Event.isStart : Event → Bool
  | .spanStart _ _ => true
  | _ => false

def Event.isEnd : Event → Bool
  | .spanEnd => true
  | _ => false

def Event.asNative : Event → Option NCall
  | .nativeCall c => some c
  | _ => none

def Event.asRecorded : Event → Option Err
  | .recordError e => some e
  | _ => none

def spanStarts (evs : List Event) : Nat := evs.countP Event.isStart

def spanEnds (evs : List Event) : Nat := evs.countP Event.isEnd

def nativeCalls (evs : List Event) : List NCall := evs.filterMap Event.asNative

def recordedErrors (evs : List Event) : List Err := evs.filterMap Event.asRecorded

/-- Model of pretty.Sprint on a positional argument list. -/
def sprintValues (args : List Value) : String := toString args

/-- Model of pretty.Sprint on a named argument list. -/
def sprintNamed (args : List NamedValue) : String :=
  toString (args.map fun a => (a.name, a.value))

structure NativeResult where
  lastInsertId : Except Err Int
  rowsAffected : Except Err Int

structure NativeRows where
  columns : List String
  close : Except Err Unit
  next : Except Err (List Value)

structure NativeTx where
  commit : Except Err Unit
  rollback : Except Err Unit

structure NativeStmt where
  numInput : Int
  close : Except Err Unit
  exec : List Value → Except Err NativeResult
  query : List Value → Except Err NativeRows
  execCtx : Option (Ctx → List NamedValue → Except Err NativeResult)
  queryCtx : Option (Ctx → List NamedValue → Except Err NativeRows)

structure NativeConn where
  prepare : String → Except Err NativeStmt
  close : Except Err Unit
  begin : Except Err NativeTx
  beginTx : Option (Ctx → TxOptions → Except Err NativeTx)
  prepareCtx : Option (Ctx → String → Except Err NativeStmt)
  exec : Option (String → List Value → Except Err NativeResult)
  execCtx : Option (Ctx → String → List NamedValue → Except Err NativeResult)
  ping : Option (Ctx → Except Err Unit)
  query : Option (String → List Value → Except Err NativeRows)
  queryCtx : Option (Ctx → String → List NamedValue → Except Err NativeRows)

structure NativeDriver where
  openConn : String → Except Err NativeConn

structure wrappedDriver where
  parent : NativeDriver

structure wrappedConn where
  parent : NativeConn

structure wrappedTx where
  ctx : Ctx
  parent : NativeTx

structure wrappedStmt where
  ctx : Ctx
  query : String
  parent : NativeStmt

structure wrappedResult where
  ctx : Ctx
  parent : NativeResult

structure wrappedRows where
  ctx : Ctx
  parent : NativeRows

/-- The span idiom shared by every traced method of the source: start a
span on the given context, set the component attribute then the extra
attributes, run the body, and in the deferred function record the returned
error (when non-nil) and end the span. -/
def spanned {α : Type} (name : String) (ctx : Ctx) (attrs : List (String × String))
    (body : Except Err α × List Event) : Except Err α × List Event :=
  (body.1,
    Event.spanStart name ctx.traceId ::
      Event.setAttr "component" "database/sql" ::
        (attrs.map (fun a => Event.setAttr a.1 a.2) ++
          body.2 ++
          (match body.1 with
            | .error e => [Event.recordError e]
            | .ok _ => []) ++
          [Event.spanEnd]))

/-- Helper copied by the source from database/sql: rejects any argument
carrying a name, otherwise keeps the values in positional order. -/
def namedValueToValue : List NamedValue → Except Err (List Value)
  | [] => .ok []
  | param :: rest =>
    if param.name.length > 0 then .error .namedParams
    else
      match namedValueToValue rest with
      | .error e => .error e
      | .ok vs => .ok (param.value :: vs)

def wrappedDriver.Open (d : wrappedDriver) (name : String) :
    Except Err wrappedConn × List Event :=
  match d.parent.openConn name with
  | .error e => (.error e, [.nativeCall (.driverOpen name)])
  | .ok conn => (.ok { parent := conn }, [.nativeCall (.driverOpen name)])

def wrappedConn.Prepare (c : wrappedConn) (query : String) :
    Except Err wrappedStmt × List Event :=
  match c.parent.prepare query with
  | .error e => (.error e, [.nativeCall (.connPrepare query)])
  | .ok parent =>
    -- the source omits the ctx field here: Go zero value, modelled as nilCtx
    (.ok { ctx := nilCtx, query := query, parent := parent },
      [.nativeCall (.connPrepare query)])

def wrappedConn.Close (c : wrappedConn) : Except Err Unit × List Event :=
  (c.parent.close, [.nativeCall .connClose])

def wrappedConn.Begin (c : wrappedConn) : Except Err wrappedTx × List Event :=
  match c.parent.begin with
  | .error e => (.error e, [.nativeCall .connBegin])
  | .ok tx =>
    -- the source omits the ctx field here: Go zero value, modelled as nilCtx
    (.ok { ctx := nilCtx, parent := tx }, [.nativeCall .connBegin])

def wrappedConn.BeginTx (c : wrappedConn) (ctx : Ctx) (opts : TxOptions) :
    Except Err wrappedTx × List Event :=
  spanned "sql-tx-begin" ctx []
    (match c.parent.beginTx with
    | some connBeginTx =>
      match connBeginTx ctx opts with
      | .error e => (.error e, [.nativeCall (.connBeginTx opts)])
      | .ok tx => (.ok { ctx := ctx, parent := tx }, [.nativeCall (.connBeginTx opts)])
    | none =>
      match c.parent.begin with
      | .error e => (.error e, [.nativeCall .connBegin])
      | .ok tx => (.ok { ctx := ctx, parent := tx }, [.nativeCall .connBegin]))

def wrappedConn.PrepareContext (c : wrappedConn) (ctx : Ctx) (query : String) :
    Except Err wrappedStmt × List Event :=
  spanned "sql-prepare" ctx [("query", query)]
    (match c.parent.prepareCtx with
    | some connPrepareCtx =>
      match connPrepareCtx ctx query with
      | .error e => (.error e, [.nativeCall (.connPrepareCtx query)])
      | .ok stmt =>
        -- the source omits the query field here: Go zero value, the empty string
        (.ok { ctx := ctx, query := "", parent := stmt },
          [.nativeCall (.connPrepareCtx query)])
    | none => c.Prepare query)

def wrappedConn.Exec (c : wrappedConn) (query : String) (args : List Value) :
    Except Err wrappedResult × List Event :=
  match c.parent.exec with
  | some execer =>
    match execer query args with
    | .error e => (.error e, [.nativeCall (.connExec query args)])
    | .ok res =>
      -- the source omits the ctx field here: Go zero value, modelled as nilCtx
      (.ok { ctx := nilCtx, parent := res }, [.nativeCall (.connExec query args)])
  | none => (.error .errSkip, [])

def wrappedConn.ExecContext (c : wrappedConn) (ctx : Ctx) (query : String)
    (args : List NamedValue) : Except Err wrappedResult × List Event :=
  spanned "sql-conn-exec" ctx [("query", query), ("args", sprintNamed args)]
    (match c.parent.execCtx with
    | some execContext =>
      match execContext ctx query args with
      | .error e => (.error e, [.nativeCall (.connExecCtx query args)])
      | .ok res => (.ok { ctx := ctx, parent := res }, [.nativeCall (.connExecCtx query args)])
    | none =>
      -- Fallback implementation
      match namedValueToValue args with
      | .error e => (.error e, [])
      | .ok dargs =>
        match ctx.cancelErr with
        | some e => (.error e, [])
        | none => c.Exec query dargs)

def wrappedConn.Ping (c : wrappedConn) (ctx : Ctx) : Except Err Unit × List Event :=
  match c.parent.ping with
  | some pinger => spanned "sql-ping" ctx [] (pinger ctx, [.nativeCall .connPing])
  | none => (.ok (), [])

def wrappedConn.Query (c : wrappedConn) (query : String) (args : List Value) :
    Except Err wrappedRows × List Event :=
  match c.parent.query with
  | some queryer =>
    match queryer query args with
    | .error e => (.error e, [.nativeCall (.connQuery query args)])
    | .ok rows =>
      -- the source omits the ctx field here: Go zero value, modelled as nilCtx
      (.ok { ctx := nilCtx, parent := rows }, [.nativeCall (.connQuery query args)])
  | none => (.error .errSkip, [])

def wrappedConn.QueryContext (c : wrappedConn) (ctx : Ctx) (query : String)
    (args : List NamedValue) : Except Err wrappedRows × List Event :=
  spanned "sql-conn-query" ctx [("query", query), ("args", sprintNamed args)]
    (match c.parent.queryCtx with
    | some queryerContext =>
      match queryerContext ctx query args with
      | .error e => (.error e, [.nativeCall (.connQueryCtx query args)])
      | .ok rows => (.ok { ctx := ctx, parent := rows }, [.nativeCall (.connQueryCtx query args)])
    | none =>
      match namedValueToValue args with
      | .error e => (.error e, [])
      | .ok dargs =>
        match ctx.cancelErr with
        | some e => (.error e, [])
        | none => c.Query query dargs)

def wrappedTx.Commit (t : wrappedTx) : Except Err Unit × List Event :=
  spanned "sql-tx-commit" t.ctx [] (t.parent.commit, [.nativeCall .txCommit])

def wrappedTx.Rollback (t : wrappedTx) : Except Err Unit × List Event :=
  spanned "sql-tx-rollback" t.ctx [] (t.parent.rollback, [.nativeCall .txRollback])

def wrappedStmt.Close (s : wrappedStmt) : Except Err Unit × List Event :=
  spanned "sql-stmt-close" s.ctx [] (s.parent.close, [.nativeCall .stmtClose])

def wrappedStmt.NumInput (s : wrappedStmt) : Int × List Event :=
  (s.parent.numInput, [.nativeCall .stmtNumInput])

def wrappedStmt.Exec (s : wrappedStmt) (args : List Value) :
    Except Err wrappedResult × List Event :=
  spanned "sql-stmt-exec" s.ctx [("query", s.query), ("args", sprintValues args)]
    (match s.parent.exec args with
    | .error e => (.error e, [.nativeCall (.stmtExec args)])
    | .ok res => (.ok { ctx := s.ctx, parent := res }, [.nativeCall (.stmtExec args)]))

def wrappedStmt.Query (s : wrappedStmt) (args : List Value) :
    Except Err wrappedRows × List Event :=
  spanned "sql-stmt-query" s.ctx [("query", s.query), ("args", sprintValues args)]
    (match s.parent.query args with
    | .error e => (.error e, [.nativeCall (.stmtQuery args)])
    | .ok rows => (.ok { ctx := s.ctx, parent := rows }, [.nativeCall (.stmtQuery args)]))

/-- NOTE: the source starts the span from s.ctx and reassigns the ctx
variable to the resulting span context, so the caller-supplied context is
discarded for the rest of the method; the capability call and the
cancellation check both see the context derived from s.ctx. -/
def wrappedStmt.ExecContext (s : wrappedStmt) (ctx : Ctx) (args : List NamedValue) :
    Except Err wrappedResult × List Event :=
  spanned "sql-stmt-exec" s.ctx [("query", s.query), ("args", sprintNamed args)]
    (match s.parent.execCtx with
    | some stmtExecContext =>
      match stmtExecContext s.ctx args with
      | .error e => (.error e, [.nativeCall (.stmtExecCtx args)])
      | .ok res => (.ok { ctx := s.ctx, parent := res }, [.nativeCall (.stmtExecCtx args)])
    | none =>
      -- Fallback implementation
      match namedValueToValue args with
      | .error e => (.error e, [])
      | .ok dargs =>
        match s.ctx.cancelErr with
        | some e => (.error e, [])
        | none => s.Exec dargs)

/-- NOTE: like ExecContext, the span is started from s.ctx and the
caller-supplied context is discarded by the reassignment. -/
def wrappedStmt.QueryContext (s : wrappedStmt) (ctx : Ctx) (args : List NamedValue) :
    Except Err wrappedRows × List Event :=
  spanned "sql-stmt-query" s.ctx [("query", s.query), ("args", sprintNamed args)]
    (match s.parent.queryCtx with
    | some stmtQueryContext =>
      match stmtQueryContext s.ctx args with
      | .error e => (.error e, [.nativeCall (.stmtQueryCtx args)])
      | .ok rows => (.ok { ctx := s.ctx, parent := rows }, [.nativeCall (.stmtQueryCtx args)])
    | none =>
      match namedValueToValue args with
      | .error e => (.error e, [])
      | .ok dargs =>
        match s.ctx.cancelErr with
        | some e => (.error e, [])
        | none => s.Query dargs)

def wrappedResult.LastInsertId (r : wrappedResult) : Except Err Int × List Event :=
  spanned "sql-res-lastInsertId" r.ctx [] (r.parent.lastInsertId, [.nativeCall .resLastInsertId])

def wrappedResult.RowsAffected (r : wrappedResult) : Except Err Int × List Event :=
  spanned "sql-res-rowsAffected" r.ctx [] (r.parent.rowsAffected, [.nativeCall .resRowsAffected])

def wrappedRows.Columns (r : wrappedRows) : List String × List Event :=
  (r.parent.columns, [.nativeCall .rowsColumns])

def wrappedRows.Close (r : wrappedRows) : Except Err Unit × List Event :=
  (r.parent.close, [.nativeCall .rowsClose])

/-- Next(dest) delivers the next row through dest and returns the native
error; the Ok payload models the values written into dest. -/
def wrappedRows.Next (r : wrappedRows) : Except Err (List Value) × List Event :=
  spanned "sql-rows-next" r.ctx [] (r.parent.next, [.nativeCall .rowsNext])

/-! Generic lemmas about the event extractors and the span idiom. -/

lemma spanned_fst {α : Type} (name : String) (ctx : Ctx) (attrs : List (String × String))
    (body : Except Err α × List Event) : (spanned name ctx attrs body).1 = body.1 := rfl

lemma spanStarts_spanned {α : Type} (name : String) (ctx : Ctx)
    (attrs : List (String × String)) (body : Except Err α × List Event) :
    spanStarts (spanned name ctx attrs body).2 = spanStarts body.2 + 1 := by
  cases hb : body.1 <;>
    simp [spanned, hb, spanStarts, List.countP_append, List.countP_cons, List.countP_map,
      Function.comp, Event.isStart]

lemma spanEnds_spanned {α : Type} (name : String) (ctx : Ctx)
    (attrs : List (String × String)) (body : Except Err α × List Event) :
    spanEnds (spanned name ctx attrs body).2 = spanEnds body.2 + 1 := by
  cases hb : body.1 <;>
    simp [spanned, hb, spanEnds, List.countP_append, List.countP_cons, List.countP_map,
      Function.comp, Event.isEnd]

lemma nativeCalls_spanned {α : Type} (name : String) (ctx : Ctx)
    (attrs : List (String × String)) (body : Except Err α × List Event) :
    nativeCalls (spanned name ctx attrs body).2 = nativeCalls body.2 := by
  cases hb : body.1 <;>
    simp [spanned, hb, nativeCalls, List.filterMap_append, List.filterMap_cons,
      List.filterMap_map, Function.comp, Event.asNative]

lemma recordedErrors_spanned {α : Type} (name : String) (ctx : Ctx)
    (attrs : List (String × String)) (body : Except Err α × List Event) :
    recordedErrors (spanned name ctx attrs body).2 =
      recordedErrors body.2 ++
        (match body.1 with | .error e => [e] | .ok _ => []) := by
  cases hb : body.1 <;>
    simp [spanned, hb, recordedErrors, List.filterMap_append, List.filterMap_cons,
      List.filterMap_map, Function.comp, Event.asRecorded]

/-! Concrete native objects used as witnesses and counterexamples. -/

def okResult : NativeResult := { lastInsertId := .ok 10, rowsAffected := .ok 2 }

def okRows : NativeRows := { columns := ["id"], close := .ok (), next := .ok [1] }

def okTx : NativeTx := { commit := .ok (), rollback := .ok () }

def failTx : NativeTx := { commit := .error (.native 7), rollback := .error (.native 8) }

/-- A statement speaking only the legacy (non context-aware) capabilities. -/
def legacyStmt : NativeStmt :=
  { numInput := 1, close := .ok (), exec := fun _ => .ok okResult,
    query := fun _ => .ok okRows, execCtx := none, queryCtx := none }

/-- A connection exposing no optional capability at all. -/
def bareConn : NativeConn :=
  { prepare := fun _ => .ok legacyStmt, close := .ok (), begin := .ok okTx,
    beginTx := none, prepareCtx := none, exec := none, execCtx := none,
    ping := none, query := none, queryCtx := none }

/-- A connection with the legacy direct execution and query capabilities. -/
def legacyConn : NativeConn :=
  { bareConn with
    exec := some fun _ _ => .ok okResult,
    query := some fun _ _ => .ok okRows }

/-- A connection whose ping capability fails with native error 5. -/
def pingConn : NativeConn :=
  { bareConn with ping := some fun _ => .error (.native 5) }

/-- A connection supporting context-aware preparation. -/
def ctxPrepConn : NativeConn :=
  { bareConn with prepareCtx := some fun _ _ => .ok legacyStmt }

def liveCtx : Ctx := { cancelErr := none, traceId := 5 }

def doneCtx : Ctx := { cancelErr := some (.ctxCanceled 3), traceId := 5 }

/-- Statement facade over a legacy-only native statement, as produced at
preparation time with a live captured context. -/
def sFB : wrappedStmt := { ctx := liveCtx, query := "INSERT", parent := legacyStmt }

/-- C7: Ping spans as sql-ping around the delegated native ping only when
the wrapped connection has the pinging capability, recording and returning
the native error; without the capability it returns nil with no span and
no native call. -/
theorem ping_spans_only_with_capability (c : wrappedConn) (ctx : Ctx) :
    (c.parent.ping = none → c.Ping ctx = (.ok (), [])) ∧
    (∀ pinger, c.parent.ping = some pinger →
      (c.Ping ctx).1 = pinger ctx ∧
      spanStarts (c.Ping ctx).2 = 1 ∧
      spanEnds (c.Ping ctx).2 = 1 ∧
      (c.Ping ctx).2.head? = some (.spanStart "sql-ping" ctx.traceId) ∧
      nativeCalls (c.Ping ctx).2 = [.connPing] ∧
      ∀ e, pinger ctx = .error e → recordedErrors (c.Ping ctx).2 = [e]) := by
  constructor
  · intro h
    simp [wrappedConn.Ping, h]
  · intro pinger hp
    refine ⟨?_, ?_, ?_, ?_, ?_, ?_⟩
    · simp [wrappedConn.Ping, hp, spanned_fst]
    · simp only [wrappedConn.Ping, hp, spanStarts_spanned]
      rfl
    · simp only [wrappedConn.Ping, hp, spanEnds_spanned]
      rfl
    · simp [wrappedConn.Ping, hp, spanned]
    · simp only [wrappedConn.Ping, hp, nativeCalls_spanned]
      rfl
    · intro e he
      simp only [wrappedConn.Ping, hp, he, recordedErrors_spanned]
      rfl

/-- C7 witness: both branches exercised on concrete connections. -/
theorem ping_spans_only_with_capability_witness :
    (wrappedConn.Ping { parent := bareConn } liveCtx = (.ok (), [])) ∧
    (wrappedConn.Ping { parent := pingConn } liveCtx).1 = .error (.native 5) ∧
    spanStarts (wrappedConn.Ping { parent := pingConn } liveCtx).2 = 1 ∧
    recordedErrors (wrappedConn.Ping { parent := pingConn } liveCtx).2 = [.native 5] := by
  have h1 := (ping_spans_only_with_capability { parent := bareConn } liveCtx).1 rfl
  have h2 := (ping_spans_only_with_capability { parent := pingConn } liveCtx).2
    (fun _ => .error (.native 5)) rfl
  exact ⟨h1, h2.1, h2.2.1, h2.2.2.2.2.2 (.native 5) rfl⟩

/-- C8: the legacy connection-scope Exec and Query start no span; without
the direct capability they fail with the driver.ErrSkip sentinel and zero
native calls; with it the native outcome is returned, the success value
wrapped in the corresponding facade. -/
theorem legacy_exec_query_no_span (c : wrappedConn) (q : String) (args : List Value) :
    spanStarts (c.Exec q args).2 = 0 ∧
    spanStarts (c.Query q args).2 = 0 ∧
    (c.parent.exec = none → c.Exec q args = (.error .errSkip, [])) ∧
    (c.parent.query = none → c.Query q args = (.error .errSkip, [])) ∧
    (∀ execer, c.parent.exec = some execer →
      (∀ e, execer q args = .error e →
        c.Exec q args = (.error e, [.nativeCall (.connExec q args)])) ∧
      (∀ res, execer q args = .ok res →
        c.Exec q args =
          (.ok { ctx := nilCtx, parent := res }, [.nativeCall (.connExec q args)]))) ∧
    (∀ queryer, c.parent.query = some queryer →
      (∀ e, queryer q args = .error e →
        c.Query q args = (.error e, [.nativeCall (.connQuery q args)])) ∧
      (∀ rows, queryer q args = .ok rows →
        c.Query q args =
          (.ok { ctx := nilCtx, parent := rows }, [.nativeCall (.connQuery q args)]))) := by
  refine ⟨?_, ?_, ?_, ?_, ?_, ?_⟩
  · cases hf : c.parent.exec with
    | none => simp [wrappedConn.Exec, hf, spanStarts]
    | some execer =>
      cases hr : execer q args <;> simp [wrappedConn.Exec, hf, hr, spanStarts] <;> rfl
  · cases hf : c.parent.query with
    | none => simp [wrappedConn.Query, hf, spanStarts]
    | some queryer =>
      cases hr : queryer q args <;> simp [wrappedConn.Query, hf, hr, spanStarts] <;> rfl
  · intro h
    simp [wrappedConn.Exec, h]
  · intro h
    simp [wrappedConn.Query, h]
  · intro execer hf
    exact ⟨fun e he => by simp [wrappedConn.Exec, hf, he],
      fun res hres => by simp [wrappedConn.Exec, hf, hres]⟩
  · intro queryer hf
    exact ⟨fun e he => by simp [wrappedConn.Query, hf, he],
      fun rows hrows => by simp [wrappedConn.Query, hf, hrows]⟩

/-- C8 witness: the sentinel branch on a bare connection and the
capability branch on a legacy connection, at concrete arguments. -/
theorem legacy_exec_query_no_span_witness :
    wrappedConn.Exec { parent := bareConn } "UPDATE t" [1] = (.error .errSkip, []) ∧
    wrappedConn.Exec { parent := legacyConn } "UPDATE t" [1] =
      (.ok { ctx := nilCtx, parent := okResult }, [.nativeCall (.connExec "UPDATE t" [1])]) ∧
    spanStarts (wrappedConn.Query { parent := legacyConn } "SELECT 1" []).2 = 0 := by
  have h1 := (legacy_exec_query_no_span { parent := bareConn } "UPDATE t" [1]).2.2.1 rfl
  have h2 := ((legacy_exec_query_no_span { parent := legacyConn } "UPDATE t" [1]).2.2.2.2.1
    (fun _ _ => .ok okResult) rfl).2 okResult rfl
  have h3 := (legacy_exec_query_no_span { parent := legacyConn } "SELECT 1" []).2.1
  exact ⟨h1, h2, h3⟩

lemma namedValueToValue_all_positional (args : List NamedValue)
    (h : ∀ a ∈ args, a.name.length = 0) :
    namedValueToValue args = .ok (args.map fun a => a.value) := by
  induction args with
  | nil => rfl
  | cons a rest ih =>
    have ha : a.name.length = 0 := h a (List.mem_cons_self a rest)
    have hrest := ih fun x hx => h x (List.mem_cons_of_mem a hx)
    simp [namedValueToValue, ha, hrest]

/-- C10: on a connection lacking both the context-aware and the legacy
direct execution capabilities, ExecContext with positional arguments and a
live context surfaces driver.ErrSkip, records it on the sql-conn-exec
span, and never reaches a native driver function; QueryContext is
symmetric. -/
theorem no_capability_execContext_errSkip (c : wrappedConn) (ctx : Ctx)
    (q : String) (args : List NamedValue)
    (hargs : ∀ a ∈ args, a.name.length = 0) (hctx : ctx.cancelErr = none) :
    (c.parent.execCtx = none → c.parent.exec = none →
      (c.ExecContext ctx q args).1 = .error .errSkip ∧
      recordedErrors (c.ExecContext ctx q args).2 = [.errSkip] ∧
      nativeCalls (c.ExecContext ctx q args).2 = [] ∧
      (c.ExecContext ctx q args).2.head? = some (.spanStart "sql-conn-exec" ctx.traceId)) ∧
    (c.parent.queryCtx = none → c.parent.query = none →
      (c.QueryContext ctx q args).1 = .error .errSkip ∧
      recordedErrors (c.QueryContext ctx q args).2 = [.errSkip] ∧
      nativeCalls (c.QueryContext ctx q args).2 = [] ∧
      (c.QueryContext ctx q args).2.head? = some (.spanStart "sql-conn-query" ctx.traceId)) := by
  have hnv := namedValueToValue_all_positional args hargs
  constructor
  · intro hec he
    refine ⟨?_, ?_, ?_, ?_⟩
    · simp [wrappedConn.ExecContext, hec, hnv, hctx, wrappedConn.Exec, he, spanned_fst]
    · simp only [wrappedConn.ExecContext, hec, hnv, hctx, wrappedConn.Exec, he,
        recordedErrors_spanned]
      rfl
    · simp only [wrappedConn.ExecContext, hec, hnv, hctx, wrappedConn.Exec, he,
        nativeCalls_spanned]
      rfl
    · simp [wrappedConn.ExecContext, hec, hnv, hctx, wrappedConn.Exec, he, spanned]
  · intro hqc hq
    refine ⟨?_, ?_, ?_, ?_⟩
    · simp [wrappedConn.QueryContext, hqc, hnv, hctx, wrappedConn.Query, hq, spanned_fst]
    · simp only [wrappedConn.QueryContext, hqc, hnv, hctx, wrappedConn.Query, hq,
        recordedErrors_spanned]
      rfl
    · simp only [wrappedConn.QueryContext, hqc, hnv, hctx, wrappedConn.Query, hq,
        nativeCalls_spanned]
      rfl
    · simp [wrappedConn.QueryContext, hqc, hnv, hctx, wrappedConn.Query, hq, spanned]

/-- C10 witness: the bare connection at a concrete query with one
positional argument and a live context. -/
theorem no_capability_execContext_errSkip_witness :
    (wrappedConn.ExecContext { parent := bareConn } liveCtx "UPDATE t" [{ name := "", value := 1 }]).1 =
      .error .errSkip ∧
    nativeCalls
      (wrappedConn.QueryContext { parent := bareConn } liveCtx "UPDATE t" [{ name := "", value := 1 }]).2 =
      [] := by
  have h := no_capability_execContext_errSkip { parent := bareConn } liveCtx "UPDATE t"
    [{ name := "", value := 1 }] (by intro a ha; simp at ha; simp [ha]) rfl
  exact ⟨(h.1 rfl rfl).1, (h.2 rfl rfl).2.2.1⟩

lemma namedValueToValue_named (args : List NamedValue)
    (h : ∃ a ∈ args, 0 < a.name.length) :
    namedValueToValue args = .error .namedParams := by
  induction args with
  | nil => simp at h
  | cons a rest ih =>
    by_cases ha : 0 < a.name.length
    · simp only [namedValueToValue]
      rw [if_pos ha]
    · simp only [namedValueToValue]
      rw [if_neg ha]
      have hrest : ∃ x ∈ rest, 0 < x.name.length := by
        rcases h with ⟨x, hx, hxp⟩
        rcases List.mem_cons.mp hx with rfl | hx
        · exact absurd hxp ha
        · exact ⟨x, hx, hxp⟩
      rw [ih hrest]

/-- C6: an argument list holding a named argument makes the fallback
conversion fail with the named-parameter-rejection error before any native
call, at connection and at statement scope; an all-positional list
converts to the values in order. -/
theorem fallback_named_args_rejected (c : wrappedConn) (s : wrappedStmt) (ctx : Ctx)
    (q : String) (args : List NamedValue) :
    ((∀ a ∈ args, a.name.length = 0) →
      namedValueToValue args = .ok (args.map fun a => a.value)) ∧
    ((∃ a ∈ args, 0 < a.name.length) →
      namedValueToValue args = .error .namedParams ∧
      Err.namedParams.message = "sql: driver does not support the use of Named Parameters" ∧
      (c.parent.execCtx = none →
        (c.ExecContext ctx q args).1 = .error .namedParams ∧
        nativeCalls (c.ExecContext ctx q args).2 = []) ∧
      (c.parent.queryCtx = none →
        (c.QueryContext ctx q args).1 = .error .namedParams ∧
        nativeCalls (c.QueryContext ctx q args).2 = []) ∧
      (s.parent.execCtx = none →
        (s.ExecContext ctx args).1 = .error .namedParams ∧
        nativeCalls (s.ExecContext ctx args).2 = []) ∧
      (s.parent.queryCtx = none →
        (s.QueryContext ctx args).1 = .error .namedParams ∧
        nativeCalls (s.QueryContext ctx args).2 = [])) := by
  refine ⟨namedValueToValue_all_positional args, ?_⟩
  intro h
  have hnv := namedValueToValue_named args h
  refine ⟨hnv, rfl, ?_, ?_, ?_, ?_⟩
  · intro hec
    constructor
    · simp [wrappedConn.ExecContext, hec, hnv, spanned_fst]
    · simp only [wrappedConn.ExecContext, hec, hnv, nativeCalls_spanned]
      rfl
  · intro hqc
    constructor
    · simp [wrappedConn.QueryContext, hqc, hnv, spanned_fst]
    · simp only [wrappedConn.QueryContext, hqc, hnv, nativeCalls_spanned]
      rfl
  · intro hec
    constructor
    · simp [wrappedStmt.ExecContext, hec, hnv, spanned_fst]
    · simp only [wrappedStmt.ExecContext, hec, hnv, nativeCalls_spanned]
      rfl
  · intro hqc
    constructor
    · simp [wrappedStmt.QueryContext, hqc, hnv, spanned_fst]
    · simp only [wrappedStmt.QueryContext, hqc, hnv, nativeCalls_spanned]
      rfl

/-- C6 witness: one named argument is rejected with zero native calls at
both scopes; a two-value positional list converts in order. -/
theorem fallback_named_args_rejected_witness :
    namedValueToValue [{ name := "id", value := 1 }] = .error .namedParams ∧
    (sFB.ExecContext liveCtx [{ name := "id", value := 1 }]).1 = .error .namedParams ∧
    nativeCalls (sFB.ExecContext liveCtx [{ name := "id", value := 1 }]).2 = [] ∧
    (wrappedConn.ExecContext { parent := bareConn } liveCtx "q" [{ name := "id", value := 1 }]).1 =
      .error .namedParams ∧
    namedValueToValue [{ name := "", value := 4 }, { name := "", value := 9 }] = .ok [4, 9] := by
  have h := fallback_named_args_rejected { parent := bareConn } sFB liveCtx "q"
    [{ name := "id", value := 1 }]
  have hnamed := h.2 ⟨{ name := "id", value := 1 }, by simp, by decide⟩
  have hpos := (fallback_named_args_rejected { parent := bareConn } sFB liveCtx "q"
    [{ name := "", value := 4 }, { name := "", value := 9 }]).1
    (by intro a ha; simp at ha; rcases ha with rfl | rfl <;> rfl)
  exact ⟨hnamed.1, (hnamed.2.2.2.2.1 rfl).1, (hnamed.2.2.2.2.1 rfl).2,
    (hnamed.2.2.1 rfl).1, hpos⟩

/-- Statement facade whose captured context is already cancelled. -/
def sDone : wrappedStmt := { ctx := doneCtx, query := "DELETE", parent := legacyStmt }

/-- C3 counterexample: a statement without the context-aware capability,
called with an already cancelled supplied context but a live captured
context, succeeds and invokes the native driver — the source starts from
s.ctx and reassigns ctx, so the supplied context is never consulted. -/
theorem stmt_fallback_ignores_supplied_ctx :
    doneCtx.cancelErr = some (.ctxCanceled 3) ∧
    sFB.parent.execCtx = none ∧
    (sFB.ExecContext doneCtx [{ name := "", value := 1 }]).1 =
      .ok { ctx := liveCtx, parent := okResult } ∧
    nativeCalls (sFB.ExecContext doneCtx [{ name := "", value := 1 }]).2 =
      [.stmtExec [1]] := by
  refine ⟨rfl, rfl, rfl, rfl⟩

/-- C3 (amended): at connection scope, a fallback call whose arguments are
all positional and whose supplied context is already cancelled returns
exactly the context cancellation error with zero native calls; at
statement scope the same holds for the context captured on the statement,
the supplied context being discarded. -/
theorem fallback_cancellation_check (c : wrappedConn) (s : wrappedStmt) (ctx : Ctx)
    (q : String) (args : List NamedValue) (e : Err)
    (hargs : ∀ a ∈ args, a.name.length = 0) :
    (c.parent.execCtx = none → ctx.cancelErr = some e →
      (c.ExecContext ctx q args).1 = .error e ∧
      nativeCalls (c.ExecContext ctx q args).2 = []) ∧
    (c.parent.queryCtx = none → ctx.cancelErr = some e →
      (c.QueryContext ctx q args).1 = .error e ∧
      nativeCalls (c.QueryContext ctx q args).2 = []) ∧
    (s.parent.execCtx = none → s.ctx.cancelErr = some e →
      (s.ExecContext ctx args).1 = .error e ∧
      nativeCalls (s.ExecContext ctx args).2 = []) ∧
    (s.parent.queryCtx = none → s.ctx.cancelErr = some e →
      (s.QueryContext ctx args).1 = .error e ∧
      nativeCalls (s.QueryContext ctx args).2 = []) := by
  have hnv := namedValueToValue_all_positional args hargs
  refine ⟨?_, ?_, ?_, ?_⟩
  · intro hec hctx
    constructor
    · simp [wrappedConn.ExecContext, hec, hnv, hctx, spanned_fst]
    · simp only [wrappedConn.ExecContext, hec, hnv, hctx, nativeCalls_spanned]
      rfl
  · intro hqc hctx
    constructor
    · simp [wrappedConn.QueryContext, hqc, hnv, hctx, spanned_fst]
    · simp only [wrappedConn.QueryContext, hqc, hnv, hctx, nativeCalls_spanned]
      rfl
  · intro hec hctx
    constructor
    · simp [wrappedStmt.ExecContext, hec, hnv, hctx, spanned_fst]
    · simp only [wrappedStmt.ExecContext, hec, hnv, hctx, nativeCalls_spanned]
      rfl
  · intro hqc hctx
    constructor
    · simp [wrappedStmt.QueryContext, hqc, hnv, hctx, spanned_fst]
    · simp only [wrappedStmt.QueryContext, hqc, hnv, hctx, nativeCalls_spanned]
      rfl

/-- C3 witness: conn scope with the supplied cancelled context and stmt
scope with a cancelled captured context, at concrete inputs. -/
theorem fallback_cancellation_check_witness :
    (wrappedConn.ExecContext { parent := bareConn } doneCtx "q" []).1 =
      .error (.ctxCanceled 3) ∧
    nativeCalls (wrappedConn.ExecContext { parent := bareConn } doneCtx "q" []).2 = [] ∧
    (sDone.ExecContext liveCtx []).1 = .error (.ctxCanceled 3) ∧
    nativeCalls (sDone.QueryContext liveCtx []).2 = [] := by
  have h := fallback_cancellation_check { parent := bareConn } sDone doneCtx "q" []
    (.ctxCanceled 3) (by intro a ha; simp at ha)
  exact ⟨(h.1 rfl rfl).1, (h.1 rfl rfl).2, (h.2.2.1 rfl rfl).1, (h.2.2.2 rfl rfl).2⟩

/-- Connection with the context-aware begin capability. -/
def beginTxConn : NativeConn :=
  { bareConn with beginTx := some fun _ _ => .ok okTx }

def someOpts : TxOptions := { isolation := 0, readOnly := false }

/-- C9: a transaction facade returned by BeginTx stores the context of
that BeginTx call on either internal path, and Commit and Rollback always
start their spans from the stored context, so both spans carry the trace
of the begin-time context; a transaction from legacy Begin stores the Go
zero context and the same reuse applies to it. -/
theorem tx_spans_reuse_begin_ctx (c : wrappedConn) (ctx : Ctx) (opts : TxOptions)
    (t : wrappedTx) :
    (∀ tx, (c.BeginTx ctx opts).1 = .ok tx → tx.ctx = ctx) ∧
    (∀ tx, (c.Begin).1 = .ok tx → tx.ctx = nilCtx) ∧
    (t.Commit).2.head? = some (.spanStart "sql-tx-commit" t.ctx.traceId) ∧
    (t.Rollback).2.head? = some (.spanStart "sql-tx-rollback" t.ctx.traceId) := by
  refine ⟨?_, ?_, ?_, ?_⟩
  · intro tx h
    cases hcap : c.parent.beginTx with
    | some connBeginTx =>
      cases hr : connBeginTx ctx opts with
      | error e => simp [wrappedConn.BeginTx, hcap, hr, spanned_fst] at h
      | ok ntx =>
        simp [wrappedConn.BeginTx, hcap, hr, spanned_fst] at h
        simp [← h]
    | none =>
      cases hr : c.parent.begin with
      | error e => simp [wrappedConn.BeginTx, hcap, hr, spanned_fst] at h
      | ok ntx =>
        simp [wrappedConn.BeginTx, hcap, hr, spanned_fst] at h
        simp [← h]
  · intro tx h
    cases hr : c.parent.begin with
    | error e => simp [wrappedConn.Begin, hr] at h
    | ok ntx =>
      simp [wrappedConn.Begin, hr] at h
      simp [← h]
  · simp [wrappedTx.Commit, spanned]
  · simp [wrappedTx.Rollback, spanned]

/-- C9 witness: both begin paths at concrete inputs, and the commit and
rollback span heads of the resulting facade. -/
theorem tx_spans_reuse_begin_ctx_witness :
    (wrappedConn.BeginTx { parent := beginTxConn } liveCtx someOpts).1 =
      .ok { ctx := liveCtx, parent := okTx } ∧
    wrappedTx.ctx { ctx := liveCtx, parent := okTx } = liveCtx ∧
    (wrappedTx.Commit { ctx := liveCtx, parent := okTx }).2.head? =
      some (.spanStart "sql-tx-commit" 5) ∧
    (wrappedConn.BeginTx { parent := bareConn } liveCtx someOpts).1 =
      .ok { ctx := liveCtx, parent := okTx } ∧
    (wrappedConn.Begin { parent := bareConn }).1 = .ok { ctx := nilCtx, parent := okTx } := by
  have h1 := (tx_spans_reuse_begin_ctx { parent := beginTxConn } liveCtx someOpts
    { ctx := liveCtx, parent := okTx }).1 { ctx := liveCtx, parent := okTx } rfl
  have h2 := (tx_spans_reuse_begin_ctx { parent := beginTxConn } liveCtx someOpts
    { ctx := liveCtx, parent := okTx }).2.2.1
  exact ⟨rfl, h1, h2, rfl, rfl⟩

def wcCtxPrep : wrappedConn := { parent := ctxPrepConn }

/-- C2: evaluation at the failing input.  On a connection supporting
context-aware preparation, PrepareContext builds the statement facade with
an empty captured query (the source omits the field), so the sql-stmt-exec
span of that statement carries an empty query attribute instead of the
prepared text; the legacy Prepare path does capture the text and echoes it
on the statement spans. -/
theorem prepareContext_ctx_path_drops_query :
    (wcCtxPrep.PrepareContext liveCtx "SELECT 1").1 =
      .ok { ctx := liveCtx, query := "", parent := legacyStmt } ∧
    (.setAttr "query" "") ∈
      (wrappedStmt.Exec { ctx := liveCtx, query := "", parent := legacyStmt } []).2 ∧
    (.setAttr "query" "SELECT 1") ∉
      (wrappedStmt.Exec { ctx := liveCtx, query := "", parent := legacyStmt } []).2 ∧
    (wrappedConn.Prepare { parent := bareConn } "SELECT 1").1 =
      .ok { ctx := nilCtx, query := "SELECT 1", parent := legacyStmt } ∧
    (.setAttr "query" "SELECT 1") ∈
      (wrappedStmt.Exec { ctx := nilCtx, query := "SELECT 1", parent := legacyStmt } []).2 := by
  refine ⟨rfl, by decide, by decide, rfl, by decide⟩

/-- An operation is error-faithful when, whenever it returns an error,
every error recorded on its spans is that same returned error and at least
one span recorded it. -/
def errorFaithful {α : Type} (op : Except Err α × List Event) : Prop :=
  ∀ e, op.1 = .error e →
    recordedErrors op.2 ≠ [] ∧ ∀ x ∈ recordedErrors op.2, x = e

lemma errorFaithful_spanned {α : Type} (name : String) (ctx : Ctx)
    (attrs : List (String × String)) (body : Except Err α × List Event)
    (hb : recordedErrors body.2 = [] ∨ errorFaithful body) :
    errorFaithful (spanned name ctx attrs body) := by
  intro e he
  rw [spanned_fst] at he
  rw [recordedErrors_spanned]
  rcases hb with hb | hb
  · simp [hb, he]
  · rcases hb e he with ⟨hne, hall⟩
    constructor
    · simp [he, List.append_eq_nil]
    · intro x hx
      simp only [he, List.mem_append] at hx
      rcases hx with hx | hx
      · exact hall x hx
      · simpa using hx

lemma errorFaithful_commit (t : wrappedTx) : errorFaithful t.Commit := by
  unfold wrappedTx.Commit
  exact errorFaithful_spanned _ _ _ _ (Or.inl rfl)

lemma errorFaithful_rollback (t : wrappedTx) : errorFaithful t.Rollback := by
  unfold wrappedTx.Rollback
  exact errorFaithful_spanned _ _ _ _ (Or.inl rfl)

lemma errorFaithful_rowsNext (rs : wrappedRows) : errorFaithful rs.Next := by
  unfold wrappedRows.Next
  exact errorFaithful_spanned _ _ _ _ (Or.inl rfl)

lemma errorFaithful_stmtClose (s : wrappedStmt) : errorFaithful s.Close := by
  unfold wrappedStmt.Close
  exact errorFaithful_spanned _ _ _ _ (Or.inl rfl)

lemma errorFaithful_lastInsertId (r : wrappedResult) : errorFaithful r.LastInsertId := by
  unfold wrappedResult.LastInsertId
  exact errorFaithful_spanned _ _ _ _ (Or.inl rfl)

lemma errorFaithful_rowsAffected (r : wrappedResult) : errorFaithful r.RowsAffected := by
  unfold wrappedResult.RowsAffected
  exact errorFaithful_spanned _ _ _ _ (Or.inl rfl)

lemma errorFaithful_stmtExec (s : wrappedStmt) (vargs : List Value) :
    errorFaithful (s.Exec vargs) := by
  unfold wrappedStmt.Exec
  apply errorFaithful_spanned
  left
  cases hr : s.parent.exec vargs <;> simp only [hr] <;> rfl

lemma errorFaithful_stmtQuery (s : wrappedStmt) (vargs : List Value) :
    errorFaithful (s.Query vargs) := by
  unfold wrappedStmt.Query
  apply errorFaithful_spanned
  left
  cases hr : s.parent.query vargs <;> simp only [hr] <;> rfl

lemma errorFaithful_connExec (c : wrappedConn) (q : String) (dargs : List Value) :
    recordedErrors (c.Exec q dargs).2 = [] := by
  unfold wrappedConn.Exec
  cases he : c.parent.exec with
  | none => rfl
  | some f => cases hr : f q dargs <;> simp only [hr] <;> rfl

lemma errorFaithful_connQuery (c : wrappedConn) (q : String) (dargs : List Value) :
    recordedErrors (c.Query q dargs).2 = [] := by
  unfold wrappedConn.Query
  cases he : c.parent.query with
  | none => rfl
  | some f => cases hr : f q dargs <;> simp only [hr] <;> rfl

lemma errorFaithful_connExecContext (c : wrappedConn) (ctx : Ctx) (q : String)
    (nargs : List NamedValue) : errorFaithful (c.ExecContext ctx q nargs) := by
  unfold wrappedConn.ExecContext
  apply errorFaithful_spanned
  left
  cases hc : c.parent.execCtx with
  | some f => cases hr : f ctx q nargs <;> simp only [hr] <;> rfl
  | none =>
    cases hnv : namedValueToValue nargs with
    | error e => simp only [hnv]; rfl
    | ok dargs =>
      cases hce : ctx.cancelErr with
      | some e => simp only [hnv, hce]; rfl
      | none => simp only [hnv, hce]; exact errorFaithful_connExec c q dargs

lemma errorFaithful_connQueryContext (c : wrappedConn) (ctx : Ctx) (q : String)
    (nargs : List NamedValue) : errorFaithful (c.QueryContext ctx q nargs) := by
  unfold wrappedConn.QueryContext
  apply errorFaithful_spanned
  left
  cases hc : c.parent.queryCtx with
  | some f => cases hr : f ctx q nargs <;> simp only [hr] <;> rfl
  | none =>
    cases hnv : namedValueToValue nargs with
    | error e => simp only [hnv]; rfl
    | ok dargs =>
      cases hce : ctx.cancelErr with
      | some e => simp only [hnv, hce]; rfl
      | none => simp only [hnv, hce]; exact errorFaithful_connQuery c q dargs

lemma errorFaithful_stmtExecContext (s : wrappedStmt) (ctx : Ctx)
    (nargs : List NamedValue) : errorFaithful (s.ExecContext ctx nargs) := by
  unfold wrappedStmt.ExecContext
  apply errorFaithful_spanned
  cases hc : s.parent.execCtx with
  | some f =>
    left
    cases hr : f s.ctx nargs <;> simp only [hr] <;> rfl
  | none =>
    cases hnv : namedValueToValue nargs with
    | error e => left; simp only [hnv]; rfl
    | ok dargs =>
      cases hce : s.ctx.cancelErr with
      | some e => left; simp only [hnv, hce]; rfl
      | none =>
        right
        simp only [hnv, hce]
        exact errorFaithful_stmtExec s dargs

lemma errorFaithful_stmtQueryContext (s : wrappedStmt) (ctx : Ctx)
    (nargs : List NamedValue) : errorFaithful (s.QueryContext ctx nargs) := by
  unfold wrappedStmt.QueryContext
  apply errorFaithful_spanned
  cases hc : s.parent.queryCtx with
  | some f =>
    left
    cases hr : f s.ctx nargs <;> simp only [hr] <;> rfl
  | none =>
    cases hnv : namedValueToValue nargs with
    | error e => left; simp only [hnv]; rfl
    | ok dargs =>
      cases hce : s.ctx.cancelErr with
      | some e => left; simp only [hnv, hce]; rfl
      | none =>
        right
        simp only [hnv, hce]
        exact errorFaithful_stmtQuery s dargs

lemma errorFaithful_beginTx (c : wrappedConn) (ctx : Ctx) (opts : TxOptions) :
    errorFaithful (c.BeginTx ctx opts) := by
  unfold wrappedConn.BeginTx
  apply errorFaithful_spanned
  left
  cases hc : c.parent.beginTx with
  | some f => cases hr : f ctx opts <;> simp only [hr] <;> rfl
  | none => cases hr : c.parent.begin <;> simp only [hr] <;> rfl

lemma errorFaithful_prepareContext (c : wrappedConn) (ctx : Ctx) (q : String) :
    errorFaithful (c.PrepareContext ctx q) := by
  unfold wrappedConn.PrepareContext
  apply errorFaithful_spanned
  left
  cases hc : c.parent.prepareCtx with
  | some f => cases hr : f ctx q <;> simp only [hr] <;> rfl
  | none =>
    unfold wrappedConn.Prepare
    cases hr : c.parent.prepare q <;> simp only [hr] <;> rfl

lemma errorFaithful_ping (c : wrappedConn) (ctx : Ctx) : errorFaithful (c.Ping ctx) := by
  unfold wrappedConn.Ping
  cases hc : c.parent.ping with
  | some p => exact errorFaithful_spanned _ _ _ _ (Or.inl rfl)
  | none =>
    intro e he
    simp at he

/-- Native row cursor whose next-row advance fails (e.g. end of rows). -/
def failRows : NativeRows := { columns := [], close := .ok (), next := .error (.native 9) }

/-- C5: every traced operation is error-faithful (each error recorded on
its spans is exactly the error returned to the caller, and a failing
operation records it at least once), and the native error of the delegated
call is returned verbatim on every path. -/
theorem span_error_equals_returned_error (t : wrappedTx) (s : wrappedStmt)
    (c : wrappedConn) (r : wrappedResult) (rs : wrappedRows) (ctx : Ctx)
    (q : String) (nargs : List NamedValue) (vargs : List Value) (opts : TxOptions) :
    errorFaithful t.Commit ∧ errorFaithful t.Rollback ∧ errorFaithful rs.Next ∧
    errorFaithful s.Close ∧ errorFaithful (s.Exec vargs) ∧ errorFaithful (s.Query vargs) ∧
    errorFaithful (s.ExecContext ctx nargs) ∧ errorFaithful (s.QueryContext ctx nargs) ∧
    errorFaithful (c.ExecContext ctx q nargs) ∧ errorFaithful (c.QueryContext ctx q nargs) ∧
    errorFaithful (c.BeginTx ctx opts) ∧ errorFaithful (c.PrepareContext ctx q) ∧
    errorFaithful (c.Ping ctx) ∧ errorFaithful r.LastInsertId ∧
    errorFaithful r.RowsAffected ∧
    t.Commit.1 = t.parent.commit ∧
    t.Rollback.1 = t.parent.rollback ∧
    rs.Next.1 = rs.parent.next ∧
    s.Close.1 = s.parent.close ∧
    r.LastInsertId.1 = r.parent.lastInsertId ∧
    r.RowsAffected.1 = r.parent.rowsAffected ∧
    (∀ e, s.parent.exec vargs = .error e → (s.Exec vargs).1 = .error e) ∧
    (∀ e, s.parent.query vargs = .error e → (s.Query vargs).1 = .error e) ∧
    (∀ f e, c.parent.execCtx = some f → f ctx q nargs = .error e →
      (c.ExecContext ctx q nargs).1 = .error e) ∧
    (∀ f e, c.parent.queryCtx = some f → f ctx q nargs = .error e →
      (c.QueryContext ctx q nargs).1 = .error e) ∧
    (∀ f e, s.parent.execCtx = some f → f s.ctx nargs = .error e →
      (s.ExecContext ctx nargs).1 = .error e) ∧
    (∀ f e, s.parent.queryCtx = some f → f s.ctx nargs = .error e →
      (s.QueryContext ctx nargs).1 = .error e) ∧
    (∀ f e, c.parent.beginTx = some f → f ctx opts = .error e →
      (c.BeginTx ctx opts).1 = .error e) ∧
    (∀ f e, c.parent.prepareCtx = some f → f ctx q = .error e →
      (c.PrepareContext ctx q).1 = .error e) ∧
    (∀ p e, c.parent.ping = some p → p ctx = .error e → (c.Ping ctx).1 = .error e) := by
  refine ⟨errorFaithful_commit t, errorFaithful_rollback t, errorFaithful_rowsNext rs,
    errorFaithful_stmtClose s, errorFaithful_stmtExec s vargs, errorFaithful_stmtQuery s vargs,
    errorFaithful_stmtExecContext s ctx nargs, errorFaithful_stmtQueryContext s ctx nargs,
    errorFaithful_connExecContext c ctx q nargs, errorFaithful_connQueryContext c ctx q nargs,
    errorFaithful_beginTx c ctx opts, errorFaithful_prepareContext c ctx q,
    errorFaithful_ping c ctx, errorFaithful_lastInsertId r, errorFaithful_rowsAffected r,
    rfl, rfl, rfl, rfl, rfl, rfl, ?_, ?_, ?_, ?_, ?_, ?_, ?_, ?_, ?_⟩
  · intro e he
    simp [wrappedStmt.Exec, he, spanned_fst]
  · intro e he
    simp [wrappedStmt.Query, he, spanned_fst]
  · intro f e hf he
    simp [wrappedConn.ExecContext, hf, he, spanned_fst]
  · intro f e hf he
    simp [wrappedConn.QueryContext, hf, he, spanned_fst]
  · intro f e hf he
    simp [wrappedStmt.ExecContext, hf, he, spanned_fst]
  · intro f e hf he
    simp [wrappedStmt.QueryContext, hf, he, spanned_fst]
  · intro f e hf he
    simp [wrappedConn.BeginTx, hf, he, spanned_fst]
  · intro f e hf he
    simp [wrappedConn.PrepareContext, hf, he, spanned_fst]
  · intro p e hp he
    simp [wrappedConn.Ping, hp, he, spanned_fst]

/-- C5 witness: a failing commit and a failing row advance on concrete
facades, with the recorded and the returned error coinciding. -/
theorem span_error_equals_returned_error_witness :
    (wrappedTx.Commit { ctx := liveCtx, parent := failTx }).1 = .error (.native 7) ∧
    recordedErrors (wrappedTx.Commit { ctx := liveCtx, parent := failTx }).2 ≠ [] ∧
    (∀ x ∈ recordedErrors (wrappedTx.Commit { ctx := liveCtx, parent := failTx }).2,
      x = .native 7) ∧
    (wrappedRows.Next { ctx := liveCtx, parent := failRows }).1 = .error (.native 9) ∧
    (∀ x ∈ recordedErrors (wrappedRows.Next { ctx := liveCtx, parent := failRows }).2,
      x = .native 9) := by
  have h := span_error_equals_returned_error { ctx := liveCtx, parent := failTx }
    sFB { parent := bareConn } { ctx := liveCtx, parent := okResult }
    { ctx := liveCtx, parent := failRows } liveCtx "q" [] [] someOpts
  have hc := h.1 (.native 7) rfl
  have hn := h.2.2.1 (.native 9) rfl
  exact ⟨rfl, hc.1, hc.2, rfl, hn.2⟩

/-- Event lists containing no span lifecycle events. -/
def noSpanEvents (evs : List Event) : Prop := spanStarts evs = 0 ∧ spanEnds evs = 0

lemma spanCount_one {α : Type} (name : String) (ctx : Ctx)
    (attrs : List (String × String)) (body : Except Err α × List Event)
    (h : noSpanEvents body.2) :
    spanStarts (spanned name ctx attrs body).2 = 1 ∧
    spanEnds (spanned name ctx attrs body).2 = 1 := by
  rw [spanStarts_spanned, spanEnds_spanned, h.1, h.2]
  exact ⟨rfl, rfl⟩

lemma spanCount_commit (t : wrappedTx) :
    spanStarts t.Commit.2 = 1 ∧ spanEnds t.Commit.2 = 1 := by
  unfold wrappedTx.Commit
  exact spanCount_one _ _ _ _ ⟨rfl, rfl⟩

lemma spanCount_rollback (t : wrappedTx) :
    spanStarts t.Rollback.2 = 1 ∧ spanEnds t.Rollback.2 = 1 := by
  unfold wrappedTx.Rollback
  exact spanCount_one _ _ _ _ ⟨rfl, rfl⟩

lemma spanCount_stmtClose (s : wrappedStmt) :
    spanStarts s.Close.2 = 1 ∧ spanEnds s.Close.2 = 1 := by
  unfold wrappedStmt.Close
  exact spanCount_one _ _ _ _ ⟨rfl, rfl⟩

lemma spanCount_lastInsertId (r : wrappedResult) :
    spanStarts r.LastInsertId.2 = 1 ∧ spanEnds r.LastInsertId.2 = 1 := by
  unfold wrappedResult.LastInsertId
  exact spanCount_one _ _ _ _ ⟨rfl, rfl⟩

lemma spanCount_rowsAffected (r : wrappedResult) :
    spanStarts r.RowsAffected.2 = 1 ∧ spanEnds r.RowsAffected.2 = 1 := by
  unfold wrappedResult.RowsAffected
  exact spanCount_one _ _ _ _ ⟨rfl, rfl⟩

lemma spanCount_rowsNext (rs : wrappedRows) :
    spanStarts rs.Next.2 = 1 ∧ spanEnds rs.Next.2 = 1 := by
  unfold wrappedRows.Next
  exact spanCount_one _ _ _ _ ⟨rfl, rfl⟩

lemma spanCount_stmtExec (s : wrappedStmt) (vargs : List Value) :
    spanStarts (s.Exec vargs).2 = 1 ∧ spanEnds (s.Exec vargs).2 = 1 := by
  unfold wrappedStmt.Exec
  apply spanCount_one
  cases hr : s.parent.exec vargs <;> simp only [hr] <;> exact ⟨rfl, rfl⟩

lemma spanCount_stmtQuery (s : wrappedStmt) (vargs : List Value) :
    spanStarts (s.Query vargs).2 = 1 ∧ spanEnds (s.Query vargs).2 = 1 := by
  unfold wrappedStmt.Query
  apply spanCount_one
  cases hr : s.parent.query vargs <;> simp only [hr] <;> exact ⟨rfl, rfl⟩

lemma noSpan_connExec (c : wrappedConn) (q : String) (dargs : List Value) :
    noSpanEvents (c.Exec q dargs).2 := by
  unfold wrappedConn.Exec
  cases he : c.parent.exec with
  | none => exact ⟨rfl, rfl⟩
  | some f => cases hr : f q dargs <;> simp only [hr] <;> exact ⟨rfl, rfl⟩

lemma noSpan_connQuery (c : wrappedConn) (q : String) (dargs : List Value) :
    noSpanEvents (c.Query q dargs).2 := by
  unfold wrappedConn.Query
  cases he : c.parent.query with
  | none => exact ⟨rfl, rfl⟩
  | some f => cases hr : f q dargs <;> simp only [hr] <;> exact ⟨rfl, rfl⟩

lemma spanCount_beginTx (c : wrappedConn) (ctx : Ctx) (opts : TxOptions) :
    spanStarts (c.BeginTx ctx opts).2 = 1 ∧ spanEnds (c.BeginTx ctx opts).2 = 1 := by
  unfold wrappedConn.BeginTx
  apply spanCount_one
  cases hc : c.parent.beginTx with
  | some f => cases hr : f ctx opts <;> simp only [hr] <;> exact ⟨rfl, rfl⟩
  | none => cases hr : c.parent.begin <;> simp only [hr] <;> exact ⟨rfl, rfl⟩

lemma spanCount_prepareContext (c : wrappedConn) (ctx : Ctx) (q : String) :
    spanStarts (c.PrepareContext ctx q).2 = 1 ∧ spanEnds (c.PrepareContext ctx q).2 = 1 := by
  unfold wrappedConn.PrepareContext
  apply spanCount_one
  cases hc : c.parent.prepareCtx with
  | some f => cases hr : f ctx q <;> simp only [hr] <;> exact ⟨rfl, rfl⟩
  | none =>
    unfold wrappedConn.Prepare
    cases hr : c.parent.prepare q <;> simp only [hr] <;> exact ⟨rfl, rfl⟩

lemma spanCount_connExecContext (c : wrappedConn) (ctx : Ctx) (q : String)
    (nargs : List NamedValue) :
    spanStarts (c.ExecContext ctx q nargs).2 = 1 ∧
    spanEnds (c.ExecContext ctx q nargs).2 = 1 := by
  unfold wrappedConn.ExecContext
  apply spanCount_one
  cases hc : c.parent.execCtx with
  | some f => cases hr : f ctx q nargs <;> simp only [hr] <;> exact ⟨rfl, rfl⟩
  | none =>
    cases hnv : namedValueToValue nargs with
    | error e => simp only [hnv]; exact ⟨rfl, rfl⟩
    | ok dargs =>
      cases hce : ctx.cancelErr with
      | some e => simp only [hnv, hce]; exact ⟨rfl, rfl⟩
      | none => simp only [hnv, hce]; exact noSpan_connExec c q dargs

lemma spanCount_connQueryContext (c : wrappedConn) (ctx : Ctx) (q : String)
    (nargs : List NamedValue) :
    spanStarts (c.QueryContext ctx q nargs).2 = 1 ∧
    spanEnds (c.QueryContext ctx q nargs).2 = 1 := by
  unfold wrappedConn.QueryContext
  apply spanCount_one
  cases hc : c.parent.queryCtx with
  | some f => cases hr : f ctx q nargs <;> simp only [hr] <;> exact ⟨rfl, rfl⟩
  | none =>
    cases hnv : namedValueToValue nargs with
    | error e => simp only [hnv]; exact ⟨rfl, rfl⟩
    | ok dargs =>
      cases hce : ctx.cancelErr with
      | some e => simp only [hnv, hce]; exact ⟨rfl, rfl⟩
      | none => simp only [hnv, hce]; exact noSpan_connQuery c q dargs

lemma spanCount_stmtExecContext_cap (s : wrappedStmt) (ctx : Ctx)
    (nargs : List NamedValue) (f : Ctx → List NamedValue → Except Err NativeResult)
    (hc : s.parent.execCtx = some f) :
    spanStarts (s.ExecContext ctx nargs).2 = 1 ∧
    spanEnds (s.ExecContext ctx nargs).2 = 1 := by
  unfold wrappedStmt.ExecContext
  apply spanCount_one
  simp only [hc]
  cases hr : f s.ctx nargs <;> simp only [hr] <;> exact ⟨rfl, rfl⟩

lemma spanCount_stmtQueryContext_cap (s : wrappedStmt) (ctx : Ctx)
    (nargs : List NamedValue) (f : Ctx → List NamedValue → Except Err NativeRows)
    (hc : s.parent.queryCtx = some f) :
    spanStarts (s.QueryContext ctx nargs).2 = 1 ∧
    spanEnds (s.QueryContext ctx nargs).2 = 1 := by
  unfold wrappedStmt.QueryContext
  apply spanCount_one
  simp only [hc]
  cases hr : f s.ctx nargs <;> simp only [hr] <;> exact ⟨rfl, rfl⟩

lemma spanCount_stmtExecContext_fallback (s : wrappedStmt) (ctx : Ctx)
    (nargs : List NamedValue) (res : wrappedResult)
    (hc : s.parent.execCtx = none) (hok : (s.ExecContext ctx nargs).1 = .ok res) :
    spanStarts (s.ExecContext ctx nargs).2 = 2 ∧
    spanEnds (s.ExecContext ctx nargs).2 = 2 := by
  unfold wrappedStmt.ExecContext at hok ⊢
  rw [spanned_fst] at hok
  simp only [hc] at hok ⊢
  cases hnv : namedValueToValue nargs with
  | error e => simp [hnv] at hok
  | ok dargs =>
    simp only [hnv] at hok ⊢
    cases hce : s.ctx.cancelErr with
    | some e => simp [hce] at hok
    | none =>
      simp only [hce] at hok ⊢
      rw [spanStarts_spanned, spanEnds_spanned,
        (spanCount_stmtExec s dargs).1, (spanCount_stmtExec s dargs).2]
      exact ⟨rfl, rfl⟩

lemma spanCount_stmtQueryContext_fallback (s : wrappedStmt) (ctx : Ctx)
    (nargs : List NamedValue) (rows : wrappedRows)
    (hc : s.parent.queryCtx = none) (hok : (s.QueryContext ctx nargs).1 = .ok rows) :
    spanStarts (s.QueryContext ctx nargs).2 = 2 ∧
    spanEnds (s.QueryContext ctx nargs).2 = 2 := by
  unfold wrappedStmt.QueryContext at hok ⊢
  rw [spanned_fst] at hok
  simp only [hc] at hok ⊢
  cases hnv : namedValueToValue nargs with
  | error e => simp [hnv] at hok
  | ok dargs =>
    simp only [hnv] at hok ⊢
    cases hce : s.ctx.cancelErr with
    | some e => simp [hce] at hok
    | none =>
      simp only [hce] at hok ⊢
      rw [spanStarts_spanned, spanEnds_spanned,
        (spanCount_stmtQuery s dargs).1, (spanCount_stmtQuery s dargs).2]
      exact ⟨rfl, rfl⟩

/-- C1 counterexample: a successful wrappedStmt.ExecContext on the
fallback path starts (and ends) two spans, not one: the outer
sql-stmt-exec span plus the span of the inner legacy Exec it delegates
to. -/
theorem stmt_fallback_double_span :
    (sFB.ExecContext liveCtx [{ name := "", value := 1 }]).1 =
      .ok { ctx := liveCtx, parent := okResult } ∧
    spanStarts (sFB.ExecContext liveCtx [{ name := "", value := 1 }]).2 = 2 ∧
    spanEnds (sFB.ExecContext liveCtx [{ name := "", value := 1 }]).2 = 2 ∧
    spanStarts (sFB.ExecContext liveCtx [{ name := "", value := 1 }]).2 ≠ 1 := by
  have h2 : spanStarts (sFB.ExecContext liveCtx [{ name := "", value := 1 }]).2 = 2 := rfl
  exact ⟨rfl, h2, rfl, by rw [h2]; decide⟩

/-- C1 (amended): every traced operation starts exactly as many spans as
it ends; all of them start exactly one, except wrappedStmt.ExecContext and
wrappedStmt.QueryContext on the fallback path, which on success start and
end exactly two (the outer context span plus the inner legacy span). -/
theorem span_starts_equal_span_ends (c : wrappedConn) (t : wrappedTx) (s : wrappedStmt)
    (r : wrappedResult) (rs : wrappedRows) (ctx : Ctx) (q : String)
    (nargs : List NamedValue) (vargs : List Value) (opts : TxOptions) :
    (spanStarts (c.BeginTx ctx opts).2 = 1 ∧ spanEnds (c.BeginTx ctx opts).2 = 1) ∧
    (spanStarts (c.PrepareContext ctx q).2 = 1 ∧ spanEnds (c.PrepareContext ctx q).2 = 1) ∧
    (spanStarts (c.ExecContext ctx q nargs).2 = 1 ∧
      spanEnds (c.ExecContext ctx q nargs).2 = 1) ∧
    (spanStarts (c.QueryContext ctx q nargs).2 = 1 ∧
      spanEnds (c.QueryContext ctx q nargs).2 = 1) ∧
    (spanStarts t.Commit.2 = 1 ∧ spanEnds t.Commit.2 = 1) ∧
    (spanStarts t.Rollback.2 = 1 ∧ spanEnds t.Rollback.2 = 1) ∧
    (spanStarts s.Close.2 = 1 ∧ spanEnds s.Close.2 = 1) ∧
    (spanStarts (s.Exec vargs).2 = 1 ∧ spanEnds (s.Exec vargs).2 = 1) ∧
    (spanStarts (s.Query vargs).2 = 1 ∧ spanEnds (s.Query vargs).2 = 1) ∧
    (spanStarts r.LastInsertId.2 = 1 ∧ spanEnds r.LastInsertId.2 = 1) ∧
    (spanStarts r.RowsAffected.2 = 1 ∧ spanEnds r.RowsAffected.2 = 1) ∧
    (spanStarts rs.Next.2 = 1 ∧ spanEnds rs.Next.2 = 1) ∧
    (∀ f, s.parent.execCtx = some f →
      spanStarts (s.ExecContext ctx nargs).2 = 1 ∧
      spanEnds (s.ExecContext ctx nargs).2 = 1) ∧
    (∀ f, s.parent.queryCtx = some f →
      spanStarts (s.QueryContext ctx nargs).2 = 1 ∧
      spanEnds (s.QueryContext ctx nargs).2 = 1) ∧
    (∀ res, s.parent.execCtx = none → (s.ExecContext ctx nargs).1 = .ok res →
      spanStarts (s.ExecContext ctx nargs).2 = 2 ∧
      spanEnds (s.ExecContext ctx nargs).2 = 2) ∧
    (∀ rows, s.parent.queryCtx = none → (s.QueryContext ctx nargs).1 = .ok rows →
      spanStarts (s.QueryContext ctx nargs).2 = 2 ∧
      spanEnds (s.QueryContext ctx nargs).2 = 2) := by
  exact ⟨spanCount_beginTx c ctx opts, spanCount_prepareContext c ctx q,
    spanCount_connExecContext c ctx q nargs, spanCount_connQueryContext c ctx q nargs,
    spanCount_commit t, spanCount_rollback t, spanCount_stmtClose s,
    spanCount_stmtExec s vargs, spanCount_stmtQuery s vargs,
    spanCount_lastInsertId r, spanCount_rowsAffected r, spanCount_rowsNext rs,
    fun f hf => spanCount_stmtExecContext_cap s ctx nargs f hf,
    fun f hf => spanCount_stmtQueryContext_cap s ctx nargs f hf,
    fun res hc hok => spanCount_stmtExecContext_fallback s ctx nargs res hc hok,
    fun rows hc hok => spanCount_stmtQueryContext_fallback s ctx nargs rows hc hok⟩

/-- C1 witness: the single-span count on a concrete commit and the
two-span count on a concrete fallback ExecContext, from the theorem. -/
theorem span_starts_equal_span_ends_witness :
    (spanStarts (wrappedTx.Commit { ctx := liveCtx, parent := okTx }).2 = 1 ∧
      spanEnds (wrappedTx.Commit { ctx := liveCtx, parent := okTx }).2 = 1) ∧
    (spanStarts (sFB.ExecContext liveCtx [{ name := "", value := 1 }]).2 = 2 ∧
      spanEnds (sFB.ExecContext liveCtx [{ name := "", value := 1 }]).2 = 2) := by
  have h := span_starts_equal_span_ends { parent := bareConn }
    { ctx := liveCtx, parent := okTx } sFB { ctx := liveCtx, parent := okResult }
    { ctx := liveCtx, parent := okRows } liveCtx "q" [{ name := "", value := 1 }] [] someOpts
  exact ⟨h.2.2.2.2.1,
    h.2.2.2.2.2.2.2.2.2.2.2.2.2.2.1 { ctx := liveCtx, parent := okResult } rfl rfl⟩

/-- Open → prepare → exec → close performed directly against the native
driver, stopping at the first error; on a successful exec the statement is
closed and its outcome returned next to the native result. -/
def directRun (d : NativeDriver) (dsn query : String) (args : List Value) :
    Except Err (NativeResult × Except Err Unit) × List NCall :=
  match d.openConn dsn with
  | .error e => (.error e, [.driverOpen dsn])
  | .ok conn =>
    match conn.prepare query with
    | .error e => (.error e, [.driverOpen dsn, .connPrepare query])
    | .ok st =>
      match st.exec args with
      | .error e => (.error e, [.driverOpen dsn, .connPrepare query, .stmtExec args])
      | .ok res =>
        (.ok (res, st.close),
          [.driverOpen dsn, .connPrepare query, .stmtExec args, .stmtClose])

/-- The same sequence through the facade layer; the caller-observable
outcome is the native result carried inside the returned facade and the
close outcome. -/
def wrappedRun (d : NativeDriver) (dsn query : String) (args : List Value) :
    Except Err (NativeResult × Except Err Unit) × List Event :=
  match wrappedDriver.Open { parent := d } dsn with
  | (.error e, evs) => (.error e, evs)
  | (.ok conn, evs1) =>
    match conn.Prepare query with
    | (.error e, evs2) => (.error e, evs1 ++ evs2)
    | (.ok st, evs2) =>
      match st.Exec args with
      | (.error e, evs3) => (.error e, evs1 ++ evs2 ++ evs3)
      | (.ok wres, evs3) =>
        match st.Close with
        | (cres, evs4) => (.ok (wres.parent, cres), evs1 ++ evs2 ++ evs3 ++ evs4)

/-- C4: the facade layer performs the same native calls with the same
arguments in the same order as the undecorated driver, returns the same
outcome at every step, and therefore yields the same final data-store
state under any transition function; the accessors of a result facade
delegate to the wrapped native result unchanged. -/
theorem wrapped_run_refines_direct (d : NativeDriver) (dsn query : String)
    (args : List Value) :
    (wrappedRun d dsn query args).1 = (directRun d dsn query args).1 ∧
    nativeCalls (wrappedRun d dsn query args).2 = (directRun d dsn query args).2 ∧
    (∀ (σ : Type) (step : σ → NCall → σ) (init : σ),
      (nativeCalls (wrappedRun d dsn query args).2).foldl step init =
        ((directRun d dsn query args).2).foldl step init) ∧
    (∀ w : wrappedResult, w.LastInsertId.1 = w.parent.lastInsertId ∧
      w.RowsAffected.1 = w.parent.rowsAffected) := by
  have key : (wrappedRun d dsn query args).1 = (directRun d dsn query args).1 ∧
      nativeCalls (wrappedRun d dsn query args).2 = (directRun d dsn query args).2 := by
    cases ho : d.openConn dsn with
    | error e =>
      constructor <;>
        simp [wrappedRun, directRun, wrappedDriver.Open, ho, nativeCalls,
          Event.asNative, List.filterMap_cons]
    | ok nconn =>
      cases hp : nconn.prepare query with
      | error e =>
        constructor <;>
          simp [wrappedRun, directRun, wrappedDriver.Open, wrappedConn.Prepare, ho, hp,
            nativeCalls, Event.asNative, List.filterMap_append, List.filterMap_cons]
      | ok nst =>
        cases hx : nst.exec args with
        | error e =>
          constructor <;>
            simp [wrappedRun, directRun, wrappedDriver.Open, wrappedConn.Prepare,
              wrappedStmt.Exec, spanned, ho, hp, hx, nativeCalls, Event.asNative,
              List.filterMap_append, List.filterMap_cons]
        | ok nres =>
          cases hcl : nst.close <;>
            constructor <;>
            simp [wrappedRun, directRun, wrappedDriver.Open, wrappedConn.Prepare,
              wrappedStmt.Exec, wrappedStmt.Close, spanned, ho, hp, hx, hcl, nativeCalls,
              Event.asNative, List.filterMap_append, List.filterMap_cons]
  exact ⟨key.1, key.2, fun σ step init => by rw [key.2], fun w => ⟨rfl, rfl⟩⟩
